import Mathlib

/-!
Shallow embedding of the BeagleBone LED light controller
(`LEDLightFantastic.go`): the intensity-to-duty curve, duty
normalization against the global current budget, the per-channel PWM
write step, the median filter, the auto-mode state machine with its
randomized limits, and auto-mode detection.

Modelling conventions.  Go `time.Duration` values are integers
(nanoseconds) and all duty arithmetic here stays far below `2^63`, so
durations are modelled by `ℕ`/`ℤ` directly.  The `float64` intensity
values flowing through the program are always `float64` images of
integers in `0..4095` (ADC samples, their medians, and medians plus an
integer offset, floored at zero), for which every float operation used
by the code is exact except the `0.03 * aout²` product in `calcDuty`;
for integral `aout ≤ 4595` the correctly rounded product differs from
the real value `3·aout²/100` by less than `10^-10`, and whenever
`3·aout²/100` is an integer the rounded product equals it exactly, so
the truncated result equals `3*aout^2/100` over the integers, which is
how `calcDuty` is embedded.  `rand.Intn n` is modelled by `r % n` for
an externally supplied `r : ℕ` (every value in `[0, n)` is a possible
outcome, and `r % n` ranges over exactly those); `time.Now`/
`time.Since` are modelled by an externally supplied clock value.
-/

namespace LLF

/-- PWM period in nanoseconds (`pwmPeriod = 500000 * time.Nanosecond`). -/
def pwmPeriod : ℕ := 500000

/-- Per-LED current limit in mA (`maxLEDCurrent`), enforced by resistors. -/
def maxLEDCurrent : ℕ := 700

/-- Total current limit in mA (`maxTotalCurrent`). -/
def maxTotalCurrent : ℕ := 1400

/-- Global duty budget (`maxTotalDuty = pwmPeriod * maxTotalCurrent / maxLEDCurrent`),
i.e. 1000000 ns. -/
def maxTotalDuty : ℕ := pwmPeriod * maxTotalCurrent / maxLEDCurrent

/-- Bottom pad added to every duty (`ainMinPad`). -/
def ainMinPad : ℕ := 25

/-- Auto-mode OFF threshold (`aoutOff`). -/
def aoutOff : ℤ := 10

/-- Auto-mode ON threshold (`aoutOn`). -/
def aoutOn : ℤ := 4000

/-- Default number of loops between offset changes (the `autoLoopMax` constant). -/
def autoLoopMax : ℤ := 400

/-- Step by which the offset changes (the `autoOffsetDelta` constant). -/
def autoOffsetDelta : ℤ := 2

/-- Outer bound for the offset (the `autoOffsetMax` constant). -/
def autoOffsetMax : ℤ := 500

/-- Cooldown in ns between re-randomizations of the offset bound
(`autoOffsetAdjust = 5 * time.Second`). -/
def autoOffsetAdjust : ℤ := 5000000000

/-- Cooldown in ns between re-randomizations of the loop bound
(`autoLoopAdjust = 5 * time.Second`). -/
def autoLoopAdjust : ℤ := 5000000000

/-!  ## Duty computation (`calcDuty`, `normalize`, `setDuty`)  -/

/-- `calcDuty`: `time.Duration(math.Min(.03*math.Pow(aout, 2)+ainMinPad, 499990))`.
For the integral intensities the program feeds it, the float computation is
exact (see the file comment), and Go's float-to-integer conversion truncates,
so over `ℕ` it is `min (3*aout^2/100 + ainMinPad) 499990`. -/
def calcDuty (aout : ℕ) : ℕ :=
  min (3 * aout ^ 2 / 100 + ainMinPad) 499990

/-- `normalize`: sums the saved raw duties; when the sum exceeds the budget the
proposed duty is scaled by `maxTotalDuty / sum` (integer arithmetic on
nanosecond counts, exactly as `time.Duration` division), otherwise it is
returned unchanged. -/
def normalize (duties : List ℕ) (duty : ℕ) : ℕ :=
  if maxTotalDuty < duties.sum then maxTotalDuty * duty / duties.sum else duty

/-- The duty-related mutable state of the main loop: the saved raw duties
(`duties` in `main`) and the duty last written to each PWM line
(`pwm.SetPWM` calls; initially the lines carry no pulse, modelled as 0). -/
structure PWMState where
  duties : List ℕ
  applied : List ℕ
  deriving DecidableEq, Repr

/-- `setDuty`: computes the raw duty for the channel, normalizes it against the
currently saved raw duties, and, only when the raw duty differs from the saved
raw duty of this channel, saves the raw duty and writes the normalized duty to
the channel's PWM line.  The boolean records whether a hardware write was
issued. -/
def setDuty (st : PWMState) (aout : ℕ) (step : ℕ) : PWMState × Bool :=
  let newDuty := calcDuty aout
  let normalDuty := normalize st.duties newDuty
  if newDuty ≠ st.duties.getD step 0 then
    (⟨st.duties.set step newDuty, st.applied.set step normalDuty⟩, true)
  else
    (st, false)

/-- One pass of the main loop over the channels: `setDuty` applied to each
`(step, aout)` pair in sequence, as the `for step, aout := range aoutMap`
loop does. -/
def runIteration (st : PWMState) (aouts : List (ℕ × ℕ)) : PWMState :=
  aouts.foldl (fun s p => (setDuty s p.2 p.1).1) st

/-!  ## Median filter (`calcMedian`)

The `container/ring` window is modelled as a list whose head is the ring's
current slot; `calcMedian` overwrites that slot with the new sample (the main
loop advances the ring right after each call, so the current slot always holds
the oldest sample), collects the whole buffer, sorts it, and returns the entry
at index `windowSize / 2`.  `sort.Float64s` is modelled by `insertionSort`
(any comparison sort computes the same sorted list).  -/

/-- `calcMedian` for window capacity `n` (`*windowSize`): overwrite the current
slot, sort the full buffer, pick index `n / 2`. -/
def calcMedian (n : ℕ) (w : List ℤ) (aout : ℤ) : ℤ :=
  ((aout :: w.tail).insertionSort (fun a b => a ≤ b)).getD (n / 2) 0

/-!  ## Randomized limits  -/

/-- The common pattern `rand.Intn(max - max/2) + max/2` used by both
`randomAutoOffsetMax` and `randomAutoLoopMax`, with the random draw
`rand.Intn k` modelled as `r % k`. -/
def boundedRandom (m : ℤ) (r : ℕ) : ℤ :=
  (r : ℤ) % (m - m / 2) + m / 2

/-- The `if max < 1 { max = 1 }` clamp both randomizers start with. -/
def clamp1 (m : ℤ) : ℤ :=
  if m < 1 then 1 else m

/-- `randomAutoOffsetMax`: clamp the bound to at least 1, then draw from
`[m/2, m)`. -/
def randomAutoOffsetMax (offsetMax : ℤ) (r : ℕ) : ℤ :=
  boundedRandom (clamp1 offsetMax) r

/-- `randomAutoLoopMax`: clamp the bound to at least 1, draw from `[m/2, m)`,
and return 1 instead of 0. -/
def randomAutoLoopMax (loopMax : ℤ) (r : ℕ) : ℤ :=
  if boundedRandom (clamp1 loopMax) r = 0 then 1 else boundedRandom (clamp1 loopMax) r

/-- `randomAutoOffsetDelta`: `±autoOffsetDelta` with a coin flip. -/
def randomAutoOffsetDelta (r : ℕ) : ℤ :=
  if r % 2 = 0 then autoOffsetDelta else -autoOffsetDelta

/-!  ## Auto-mode state machine (`LED.autoAdjust`)  -/

/-- The auto-mode fields of the `LED` struct.  Timestamps are clock readings
in nanoseconds (`time.Time`; the zero value is modelled as 0, and
`time.Since(t) > d` as `now - t > d`). -/
structure LED where
  autoLoop : ℤ
  autoLoopMax : ℤ
  updateLoopSize : Bool
  lastLoopAdjust : ℤ
  autoOffset : ℤ
  autoOffsetDelta : ℤ
  autoOffsetMax : ℤ
  lastOffsetAdjust : ℤ
  deriving DecidableEq, Repr

/-- External inputs consumed by one `autoAdjust` call: the current clock and
the outcomes of the `rand` draws the call may make. -/
structure Env where
  now : ℤ
  coinOffset : ℕ
  randOffsetMax : ℕ
  coinLoop : ℕ
  randLoopMax : ℕ
  randLoopMaxUpd : ℕ
  deriving Repr

/-- The `offsetMax := aout * autoOffsetMaxRatio; if offsetMax > autoOffsetMax
{ offsetMax = autoOffsetMax }` cap (the ratio constant is 2). -/
def capOffsetMax (aout : ℤ) : ℤ :=
  if aout * 2 > autoOffsetMax then autoOffsetMax else aout * 2

/-- The `led.updateLoopSize` branch at the top of the trigger body: consume the
flag and re-randomize `autoLoopMax` from the caller's `loopMax`. -/
def consumeUpdateFlag (s : LED) (loopMax : ℤ) (e : Env) : LED :=
  if s.updateLoopSize then
    { s with autoLoopMax := randomAutoLoopMax loopMax e.randLoopMaxUpd,
             updateLoopSize := false }
  else s

/-- `led.autoLoop = 0; led.autoOffset += led.autoOffsetDelta`. -/
def stepOffset (s : LED) : LED :=
  { s with autoLoop := 0, autoOffset := s.autoOffset + s.autoOffsetDelta }

/-- The boundary condition guarding the direction switch, evaluated on the
state after the offset step. -/
def flipGuard (s : LED) (aout : ℤ) : Prop :=
  (s.autoOffset > s.autoOffsetMax ∧ s.autoOffsetDelta > 0) ∨
  (s.autoOffset < -s.autoOffsetMax ∧ s.autoOffsetDelta < 0) ∨
  aout + s.autoOffset ≤ aoutOff ∨ aout + s.autoOffset ≥ aoutOn

instance (s : LED) (aout : ℤ) : Decidable (flipGuard s aout) := by
  unfold flipGuard; infer_instance

/-- The cooldown-gated re-randomization of `autoOffsetMax`: install the new
bound, then point the delta back inside if the current offset lies outside
the new bound (`led.autoOffsetDelta = ∓autoOffsetDelta`). -/
def rerandOffsetMax (s : LED) (aout : ℤ) (e : Env) : LED :=
  if s.autoOffset > randomAutoOffsetMax (capOffsetMax aout) e.randOffsetMax then
    { s with autoOffsetMax := randomAutoOffsetMax (capOffsetMax aout) e.randOffsetMax,
             autoOffsetDelta := -autoOffsetDelta }
  else if s.autoOffset < -(randomAutoOffsetMax (capOffsetMax aout) e.randOffsetMax) then
    { s with autoOffsetMax := randomAutoOffsetMax (capOffsetMax aout) e.randOffsetMax,
             autoOffsetDelta := autoOffsetDelta }
  else
    { s with autoOffsetMax := randomAutoOffsetMax (capOffsetMax aout) e.randOffsetMax }

/-- The body of the `flipGuard` branch: switch direction, and, when the
cooldown has expired (timestamp refreshed regardless of the coin) and the coin
lands 0, re-randomize the offset bound. -/
def offsetBoundary (s : LED) (aout : ℤ) (e : Env) : LED :=
  if e.now - s.lastOffsetAdjust > autoOffsetAdjust then
    if e.coinOffset % 2 = 0 then
      rerandOffsetMax { s with autoOffsetDelta := -s.autoOffsetDelta,
                               lastOffsetAdjust := e.now } aout e
    else
      { s with autoOffsetDelta := -s.autoOffsetDelta, lastOffsetAdjust := e.now }
  else
    { s with autoOffsetDelta := -s.autoOffsetDelta }

/-- The trailing `autoLoopMax` re-randomization (timestamp refreshed
regardless of the three-sided coin). -/
def loopRerand (s : LED) (loopMax : ℤ) (e : Env) : LED :=
  if s.updateLoopSize = false ∧ e.now - s.lastLoopAdjust > autoLoopAdjust then
    if e.coinLoop % 3 = 0 then
      { s with lastLoopAdjust := e.now,
               autoLoopMax := randomAutoLoopMax loopMax e.randLoopMax }
    else
      { s with lastLoopAdjust := e.now }
  else s

/-- The body executed when `led.updateLoopSize || led.autoLoop > led.autoLoopMax`. -/
def triggerBody (s : LED) (aout loopMax : ℤ) (e : Env) : LED :=
  loopRerand
    (if flipGuard (stepOffset (consumeUpdateFlag s loopMax e)) aout then
      offsetBoundary (stepOffset (consumeUpdateFlag s loopMax e)) aout e
    else
      stepOffset (consumeUpdateFlag s loopMax e))
    loopMax e

/-- `LED.autoAdjust`: increment the loop counter and, when the update flag is
set or the counter has exceeded `autoLoopMax`, run the trigger body. -/
def autoAdjust (s : LED) (aout loopMax : ℤ) (e : Env) : LED :=
  if s.updateLoopSize = true ∨ s.autoLoop + 1 > s.autoLoopMax then
    triggerBody { s with autoLoop := s.autoLoop + 1 } aout loopMax e
  else
    { s with autoLoop := s.autoLoop + 1 }

/-- The auto-mode fields as `initPWMs` creates each `LED`: zero-valued
counter, offset, flag and timestamps, and randomized `autoLoopMax`,
`autoOffsetDelta`, `autoOffsetMax`. -/
def initLED (r1 r2 r3 : ℕ) : LED :=
  { autoLoop := 0,
    autoLoopMax := randomAutoLoopMax autoLoopMax r1,
    updateLoopSize := false,
    lastLoopAdjust := 0,
    autoOffset := 0,
    autoOffsetDelta := randomAutoOffsetDelta r2,
    autoOffsetMax := randomAutoOffsetMax autoOffsetMax r3,
    lastOffsetAdjust := 0 }

/-- States of one channel reachable from its randomized initial state by
repeated `autoAdjust` calls, with arbitrary intensities, loop bounds, clocks
and random outcomes at every call. -/
inductive Reachable (r1 r2 r3 : ℕ) : LED → Prop where
  | init : Reachable r1 r2 r3 (initLED r1 r2 r3)
  | step (s : LED) (aout loopMax : ℤ) (e : Env) :
      Reachable r1 r2 r3 s → Reachable r1 r2 r3 (autoAdjust s aout loopMax e)

/-!  ## Auto-mode detection (`calcAutoMode`)  -/

/-- One step of the counting loop in `calcAutoMode`: the accumulator holds
`(offCt, onCt, ls)`; a reading below `aoutOff` bumps `offCt` and records the
step, otherwise a reading above `aoutOn` bumps `onCt`. -/
def modeCount (a : Fin 4 → ℤ) (acc : ℕ × ℕ × Fin 4) (step : Fin 4) : ℕ × ℕ × Fin 4 :=
  if a step < aoutOff then (acc.1 + 1, acc.2.1, step)
  else if a step > aoutOn then (acc.1, acc.2.1 + 1, acc.2.2)
  else acc

/-- `calcAutoMode`: count the off/on readings over the four channels (visited
in the map's iteration order `ord`), then: four off ⇒ mode off; one off and
three on ⇒ mode on with the off channel as rate-control step; otherwise
unchanged.  `ls` starts at the zero value of `byte`. -/
def calcAutoMode (autoMode : Bool) (autoLoopStep : Fin 4) (a : Fin 4 → ℤ)
    (ord : List (Fin 4)) : Bool × Fin 4 :=
  if (ord.foldl (modeCount a) (0, 0, 0)).1 = 4 then
    (false, autoLoopStep)
  else if (ord.foldl (modeCount a) (0, 0, 0)).1 = 1 ∧
      (ord.foldl (modeCount a) (0, 0, 0)).2.1 = 3 then
    (true, (ord.foldl (modeCount a) (0, 0, 0)).2.2)
  else
    (autoMode, autoLoopStep)

end LLF

namespace LLF

/-!  ## Concrete states used by the counterexamples  -/

/-- The duty/line state reached by one pass of the main loop from startup
(all saved duties and all PWM lines at zero) with every channel's intensity
at 4090. -/
def budgetRun : PWMState :=
  runIteration ⟨[0, 0, 0, 0], [0, 0, 0, 0]⟩ [(0, 4090), (1, 4090), (2, 4090), (3, 4090)]

/-- A duty/line state in which channel 0's saved raw duty matches its line but
the other channels have since raised the raw sum over budget. -/
def c4state : PWMState :=
  ⟨[499990, 499990, 499990, 0], [499990, 499990, 499990, 0]⟩

end LLF

namespace LLF

/-- The offset-related inductive invariant of one channel: the delta is
`±2`, the offset is even and lies in `[-500, 500]`, the per-channel bound
lies in `[0, 499]`, and the offset is at least one step short of the global
bound in the current direction of travel. -/
def OffsetInv (s : LED) : Prop :=
  (s.autoOffsetDelta = 2 ∨ s.autoOffsetDelta = -2) ∧
  2 ∣ s.autoOffset ∧
  0 ≤ s.autoOffsetMax ∧ s.autoOffsetMax ≤ 499 ∧
  (s.autoOffsetDelta = 2 → s.autoOffset ≤ 498) ∧
  (s.autoOffsetDelta = -2 → -498 ≤ s.autoOffset) ∧
  -500 ≤ s.autoOffset ∧ s.autoOffset ≤ 500

/-- Environment for the first 200 calls of the C2 trajectory (clock still at
0, no cooldown expired). -/
def c2E0 : Env := ⟨0, 1, 0, 1, 0, 0⟩

/-- Environment for call 201 of the C2 trajectory: both cooldowns expired,
both coins land 0, both `rand.Intn` draws return their minimum. -/
def c2E1 : Env := ⟨10000000000, 0, 0, 0, 7, 0⟩

/-- Environment for the last 14 calls of the C2 trajectory (cooldowns not
expired again). -/
def c2E2 : Env := ⟨10000000001, 1, 0, 1, 0, 0⟩

/-- A state reached from the randomized initial state
`initLED 0 1 0` (loop bound 200, delta −2, offset bound 250) by 200 calls at
intensity 11, one call at intensity 11 that crosses the off threshold,
re-randomizes the offset bound down to 11 and the loop bound down to 1, and
14 calls at intensity 2000 that walk the offset up to 12, two past the new
bound 11. -/
def cexC2 : LED :=
  (fun s => autoAdjust s 2000 1 c2E2)^[14]
    (autoAdjust ((fun s => autoAdjust s 11 1 c2E0)^[200] (initLED 0 1 0)) 11 1 c2E1)

/-- A channel state about to take a triggering step: counter past the loop
bound, offset 6 travelling down (delta −2), offset bound 400. -/
def c5s : LED := ⟨400, 100, false, 0, 6, -2, 400, 0⟩

/-- Environment for the C5 counterexample: offset cooldown expired, offset
coin lands 0, `rand.Intn` draw 0, loop coin lands 1. -/
def c5e : Env := ⟨10000000000, 0, 0, 1, 0, 0⟩

end LLF

namespace LLF

/-!  ## Claims about the duty pipeline  -/

/-- C1: the spec claims the sum of the duty cycles applied to the four PWM
lines never exceeds `maxTotalDuty` after normalization.  The code violates
this: each channel is normalized against the stale saved-duty array (the
other channels' values from earlier in the pass or from earlier passes), and
a channel whose raw duty is unchanged is never rewritten.  Starting from the
zero state, one pass with all intensities at 4090 leaves the four lines at
499990+499990+499990+333333 = 1833303 ns > 1000000 ns, and a second
identical pass performs no writes at all, so the over-budget line state
persists. -/
theorem c1_applied_duty_sum_exceeds_budget :
    maxTotalDuty < budgetRun.applied.sum ∧
    runIteration budgetRun [(0, 4090), (1, 4090), (2, 4090), (3, 4090)] = budgetRun := by
  decide

/-- C4 counterexample: the spec claims a PWM write happens exactly when the
normalized duty differs from the value previously applied to the line.  In
`c4state` channel 0's normalized duty (333333 ns, the raw sum now being over
budget) differs from the 499990 ns on its line, yet `setDuty` issues no
write, because it compares raw duties only. -/
theorem c4_skip_despite_stale_line :
    (setDuty c4state 4090 0).2 = false ∧
    normalize c4state.duties (calcDuty 4090) ≠ c4state.applied.getD 0 0 := by
  decide

/-- C4 amended: a write to the channel's PWM line occurs if and only if the
raw (un-normalized) duty computed from the intensity differs from the raw
duty saved for that channel; when they are equal the state is untouched. -/
theorem c4_write_condition_raw (st : PWMState) (aout step : ℕ) :
    ((setDuty st aout step).2 = true ↔ calcDuty aout ≠ st.duties.getD step 0) ∧
    ((setDuty st aout step).2 = false → (setDuty st aout step).1 = st) := by
  unfold setDuty
  dsimp only
  split_ifs with h
  · refine ⟨⟨fun _ => h, fun _ => rfl⟩, fun hf => ?_⟩
    cases hf
  · refine ⟨⟨fun hf => ?_, fun hne => absurd hne h⟩, fun _ => rfl⟩
    cases hf

/-!  ## Claims about the median filter  -/

/-- C3 counterexample: the spec says that for an even window capacity the
median filter returns the lower-middle element of the sorted buffer.  With
capacity 2, window `[5, 1]` and new sample 3, the buffer becomes `[3, 1]`,
whose sorted form is `[1, 3]` with lower-middle element 1, yet `calcMedian`
returns 3 (the upper-middle element, index `n/2`). -/
theorem c3_not_lower_middle :
    List.Sorted (fun a b => a ≤ b) [(1 : ℤ), 3] ∧
    List.Perm [(1 : ℤ), 3] ((3 : ℤ) :: List.tail [5, 1]) ∧
    ([(1 : ℤ), 3]).getD 0 0 = 1 ∧
    calcMedian 2 [5, 1] 3 = 3 := by
  refine ⟨?_, by decide, by decide, by decide⟩
  simp [List.Sorted]

/-- C3 amended: the median filter overwrites the oldest slot with the new
sample and returns the element at index `n/2` (zero-based) of the sorted
buffer — for an even capacity the upper-middle element, not the
lower-middle one: whatever sorted arrangement `s` of the updated buffer one
takes, the returned value is `s`'s entry at index `n/2`. -/
theorem c3_calcMedian_sorted_middle (n : ℕ) (w : List ℤ) (aout : ℤ) (s : List ℤ)
    (hperm : List.Perm s (aout :: w.tail))
    (hsort : List.Sorted (fun a b => a ≤ b) s) :
    calcMedian n w aout = s.getD (n / 2) 0 := by
  unfold calcMedian
  have h1 := List.perm_insertionSort (fun a b => a ≤ b) (aout :: w.tail)
  have h2 := List.sorted_insertionSort (fun a b => a ≤ b) (aout :: w.tail)
  have : s = List.insertionSort (fun a b => a ≤ b) (aout :: w.tail) :=
    List.eq_of_perm_of_sorted (hperm.trans h1.symm) hsort h2
  rw [this]

/-- C3 witness: with capacity 4, window `[9, 1, 7, 3]` and new sample 5 the
buffer is `[5, 1, 7, 3]`, its unique sorted arrangement is `[1, 3, 5, 7]`,
and the filter returns the index-2 entry 5. -/
theorem c3_calcMedian_sorted_middle_witness :
    calcMedian 4 [9, 1, 7, 3] 5 = ([1, 3, 5, 7] : List ℤ).getD (4 / 2) 0 :=
  c3_calcMedian_sorted_middle 4 [9, 1, 7, 3] 5 [1, 3, 5, 7] (by decide)
    (by simp [List.Sorted])

/-- C9: the median filter's output depends only on the multiset of values in
the updated buffer — any two windows and new samples that produce
permutation-equivalent buffers yield the same median. -/
theorem c9_median_multiset_invariant (n : ℕ) (w1 w2 : List ℤ) (a1 a2 : ℤ)
    (h : List.Perm (a1 :: w1.tail) (a2 :: w2.tail)) :
    calcMedian n w1 a1 = calcMedian n w2 a2 := by
  unfold calcMedian
  congr 1
  exact List.eq_of_perm_of_sorted
    ((List.perm_insertionSort _ _).trans (h.trans (List.perm_insertionSort _ _).symm))
    (List.sorted_insertionSort _ _) (List.sorted_insertionSort _ _)

/-- C9 witness: windows `[9, 4]` with sample 7 and `[8, 7]` with sample 4
hold the same multiset `{4, 7}` after the update and give the same median. -/
theorem c9_median_multiset_invariant_witness :
    calcMedian 2 [9, 4] 7 = calcMedian 2 [8, 7] 4 :=
  c9_median_multiset_invariant 2 [9, 4] [8, 7] 7 4 (by decide)

/-!  ## Claims about the intensity-to-duty curve  -/

/-- C7: `calcDuty 0` equals the fixed floor `ainMinPad` (25 ns); `calcDuty`
is monotonically non-decreasing on the intensity domain `0..4095`; and for
every intensity from 4083 up to the top of the domain it saturates at
499990 ns, just under the PWM period. -/
theorem c7_calcDuty_props :
    calcDuty 0 = ainMinPad ∧
    (∀ a b : ℕ, a ≤ b → b ≤ 4095 → calcDuty a ≤ calcDuty b) ∧
    (∀ a : ℕ, 4083 ≤ a → a ≤ 4095 → calcDuty a = 499990) := by
  refine ⟨by decide, ?_, ?_⟩
  · intro a b hab _
    unfold calcDuty
    have h1 : 3 * a ^ 2 ≤ 3 * b ^ 2 :=
      Nat.mul_le_mul_left 3 (Nat.pow_le_pow_left hab 2)
    exact min_le_min (Nat.add_le_add_right (Nat.div_le_div_right h1) _) (le_refl _)
  · intro a ha _
    unfold calcDuty ainMinPad
    have h1 : 4083 ^ 2 ≤ a ^ 2 := Nat.pow_le_pow_left ha 2
    have h2 : (50012667 : ℕ) / 100 ≤ 3 * a ^ 2 / 100 :=
      Nat.div_le_div_right (by omega)
    omega

/-- C7 witness: monotonicity applied at 5 ≤ 7 and saturation applied at
4090. -/
theorem c7_calcDuty_props_witness :
    calcDuty 5 ≤ calcDuty 7 ∧ calcDuty 4090 = 499990 :=
  ⟨c7_calcDuty_props.2.1 5 7 (by norm_num) (by norm_num),
   c7_calcDuty_props.2.2 4090 (by norm_num) (by norm_num)⟩

end LLF

namespace LLF

/-!  ## Claims about the randomized limits  -/

/-- C8 counterexample: the spec claims both randomized limits are never
zero for every bound `m ≥ 1` and every random outcome, and stay strictly
below `m` plus the pad `m/2`.  At `m = 1` the pad is 0 and
`randomAutoOffsetMax` returns `rand.Intn(1) + 0 = 0` for every outcome
(it lacks the zero-guard `randomAutoLoopMax` has), while
`randomAutoLoopMax`'s guard pushes its result to 1, which is not strictly
below `1 + 1/2 = 1`. -/
theorem c8_offsetMax_zero :
    randomAutoOffsetMax 1 0 = 0 ∧
    randomAutoLoopMax 1 0 = 1 ∧ ¬ randomAutoLoopMax 1 0 < 1 + 1 / 2 := by
  decide

/-- C8 amended: for every bound `m ≥ 2` and every outcome of the random
source, `randomAutoOffsetMax m` and `randomAutoLoopMax m` both return a
value at least `m / 2`, strictly below `m` (hence strictly below `m` plus
the pad), and never zero.  For `m = 1`, `randomAutoOffsetMax` returns 0 and
`randomAutoLoopMax` returns exactly 1. -/
theorem c8_random_limits_bounds (m : ℤ) (r : ℕ) (hm : 2 ≤ m) :
    (m / 2 ≤ randomAutoOffsetMax m r ∧ randomAutoOffsetMax m r < m ∧
      randomAutoOffsetMax m r ≠ 0) ∧
    (m / 2 ≤ randomAutoLoopMax m r ∧ randomAutoLoopMax m r < m ∧
      randomAutoLoopMax m r ≠ 0) := by
  have hc : clamp1 m = m := by
    unfold clamp1
    rw [if_neg (by omega)]
  have he1 : 0 ≤ (r : ℤ) % (m - m / 2) := Int.emod_nonneg _ (by omega)
  have he2 : (r : ℤ) % (m - m / 2) < m - m / 2 := Int.emod_lt_of_pos _ (by omega)
  have hb : m / 2 ≤ boundedRandom m r ∧ boundedRandom m r ≤ m - 1 := by
    unfold boundedRandom
    omega
  have hbne : ¬ boundedRandom m r = 0 := by omega
  unfold randomAutoOffsetMax randomAutoLoopMax
  rw [hc, if_neg hbne]
  omega

/-- C8 witness: the amended bounds at `m = 2`, `r = 0`: both limits are 1,
inside `[1, 2)` and nonzero. -/
theorem c8_random_limits_bounds_witness :
    ((2 : ℤ) / 2 ≤ randomAutoOffsetMax 2 0 ∧ randomAutoOffsetMax 2 0 < 2 ∧
      randomAutoOffsetMax 2 0 ≠ 0) ∧
    ((2 : ℤ) / 2 ≤ randomAutoLoopMax 2 0 ∧ randomAutoLoopMax 2 0 < 2 ∧
      randomAutoLoopMax 2 0 ≠ 0) :=
  c8_random_limits_bounds 2 0 (by norm_num)

/-!  ## Frame effect of a non-triggering `autoAdjust` call  -/

/-- C10: when the update flag is clear and the incremented counter has not
exceeded `autoLoopMax`, `autoAdjust` only increments `autoLoop` and leaves
the offset, its delta and bound, the loop bound, the flag and both
timestamps unchanged. -/
theorem c10_autoAdjust_frame (s : LED) (aout loopMax : ℤ) (e : Env)
    (hflag : s.updateLoopSize = false) (hloop : s.autoLoop + 1 ≤ s.autoLoopMax) :
    (autoAdjust s aout loopMax e).autoLoop = s.autoLoop + 1 ∧
    (autoAdjust s aout loopMax e).autoOffset = s.autoOffset ∧
    (autoAdjust s aout loopMax e).autoOffsetDelta = s.autoOffsetDelta ∧
    (autoAdjust s aout loopMax e).autoOffsetMax = s.autoOffsetMax ∧
    (autoAdjust s aout loopMax e).autoLoopMax = s.autoLoopMax ∧
    (autoAdjust s aout loopMax e).updateLoopSize = s.updateLoopSize ∧
    (autoAdjust s aout loopMax e).lastLoopAdjust = s.lastLoopAdjust ∧
    (autoAdjust s aout loopMax e).lastOffsetAdjust = s.lastOffsetAdjust := by
  unfold autoAdjust
  rw [if_neg]
  · exact ⟨rfl, rfl, rfl, rfl, rfl, rfl, rfl, rfl⟩
  · rintro (h | h)
    · rw [hflag] at h
      cases h
    · omega

/-- C10 witness: one call on the freshly initialized channel (counter 0,
loop bound 200) with intensity 100 only bumps the counter. -/
theorem c10_autoAdjust_frame_witness :
    (autoAdjust (initLED 0 0 0) 100 1 ⟨0, 0, 0, 0, 0, 0⟩).autoLoop =
      (initLED 0 0 0).autoLoop + 1 ∧
    (autoAdjust (initLED 0 0 0) 100 1 ⟨0, 0, 0, 0, 0, 0⟩).autoOffset =
      (initLED 0 0 0).autoOffset :=
  ⟨(c10_autoAdjust_frame (initLED 0 0 0) 100 1 ⟨0, 0, 0, 0, 0, 0⟩
      (by decide) (by decide)).1,
   (c10_autoAdjust_frame (initLED 0 0 0) 100 1 ⟨0, 0, 0, 0, 0, 0⟩
      (by decide) (by decide)).2.1⟩

end LLF

namespace LLF

/-!  ## Helper lemmas for the auto-mode state machine  -/

/-- Range of `randomAutoOffsetMax` for bounds at most 500: the result lies in
`[0, 499]`. -/
theorem randomAutoOffsetMax_le (m : ℤ) (r : ℕ) (hm : m ≤ 500) :
    0 ≤ randomAutoOffsetMax m r ∧ randomAutoOffsetMax m r ≤ 499 := by
  unfold randomAutoOffsetMax clamp1 boundedRandom
  split_ifs with h
  · have h1 : (0 : ℤ) ≤ (r : ℤ) % (1 - 1 / 2) := Int.emod_nonneg _ (by decide)
    have h2 : (r : ℤ) % (1 - 1 / 2) < 1 - 1 / 2 := Int.emod_lt_of_pos _ (by decide)
    omega
  · have h1 : (0 : ℤ) ≤ (r : ℤ) % (m - m / 2) := Int.emod_nonneg _ (by omega)
    have h2 : (r : ℤ) % (m - m / 2) < m - m / 2 := Int.emod_lt_of_pos _ (by omega)
    omega

/-- The intensity-relative cap never exceeds the global constant 500. -/
theorem capOffsetMax_le (aout : ℤ) : capOffsetMax aout ≤ 500 := by
  unfold capOffsetMax autoOffsetMax
  split_ifs <;> omega

/-- `loopRerand` never touches the offset, its delta, or its bound. -/
theorem loopRerand_offset_fields (s : LED) (lm : ℤ) (e : Env) :
    (loopRerand s lm e).autoOffset = s.autoOffset ∧
    (loopRerand s lm e).autoOffsetDelta = s.autoOffsetDelta ∧
    (loopRerand s lm e).autoOffsetMax = s.autoOffsetMax := by
  unfold loopRerand
  split_ifs <;> exact ⟨rfl, rfl, rfl⟩

/-- `loopRerand` preserves the offset invariant in both directions. -/
theorem offsetInv_loopRerand (s : LED) (lm : ℤ) (e : Env) :
    OffsetInv (loopRerand s lm e) ↔ OffsetInv s := by
  unfold loopRerand
  split_ifs <;> exact Iff.rfl

/-- `consumeUpdateFlag` preserves the offset invariant in both directions. -/
theorem offsetInv_consume (s : LED) (lm : ℤ) (e : Env) :
    OffsetInv (consumeUpdateFlag s lm e) ↔ OffsetInv s := by
  unfold consumeUpdateFlag
  split_ifs <;> exact Iff.rfl

/-- The offset invariant survives the offset step and the boundary branch. -/
theorem offsetInv_core (s : LED) (aout : ℤ) (e : Env) (h : OffsetInv s) :
    OffsetInv (if flipGuard (stepOffset s) aout then offsetBoundary (stepOffset s) aout e
               else stepOffset s) := by
  obtain ⟨hd, hpar, hm0, hm1, hub, hlb, hlo, hhi⟩ := h
  have hR := randomAutoOffsetMax_le (capOffsetMax aout) e.randOffsetMax (capOffsetMax_le aout)
  by_cases hg : flipGuard (stepOffset s) aout
  · rw [if_pos hg]
    unfold offsetBoundary rerandOffsetMax stepOffset OffsetInv autoOffsetDelta
    split_ifs <;> (try dsimp only at *) <;>
      (try simp only [eq_self_iff_true, true_or, or_true, false_or, or_false,
        true_and, and_true, false_implies, true_implies]) <;>
      omega
  · rw [if_neg hg]
    unfold flipGuard stepOffset aoutOff aoutOn at hg
    dsimp only at hg
    push_neg at hg
    unfold OffsetInv stepOffset
    dsimp only
    omega

/-- One `autoAdjust` call preserves the offset invariant. -/
theorem offsetInv_step (s : LED) (aout loopMax : ℤ) (e : Env) (h : OffsetInv s) :
    OffsetInv (autoAdjust s aout loopMax e) := by
  unfold autoAdjust
  split_ifs with ht
  · unfold triggerBody
    rw [offsetInv_loopRerand]
    exact offsetInv_core _ aout e ((offsetInv_consume _ loopMax e).mpr h)
  · exact h

/-- The randomized initial state satisfies the offset invariant. -/
theorem offsetInv_init (r1 r2 r3 : ℕ) : OffsetInv (initLED r1 r2 r3) := by
  have hR := randomAutoOffsetMax_le autoOffsetMax r3 (by decide)
  unfold OffsetInv initLED randomAutoOffsetDelta autoOffsetDelta
  split_ifs <;> dsimp only <;> omega

/-- In the boundary branch, the delta ends up exactly reflected whenever the
re-randomization either does not run or leaves the offset inside the new
bound. -/
theorem offsetBoundary_delta (s : LED) (aout : ℤ) (e : Env)
    (hno : e.now - s.lastOffsetAdjust > autoOffsetAdjust → e.coinOffset % 2 = 0 →
      -(randomAutoOffsetMax (capOffsetMax aout) e.randOffsetMax) ≤ s.autoOffset ∧
      s.autoOffset ≤ randomAutoOffsetMax (capOffsetMax aout) e.randOffsetMax) :
    (offsetBoundary s aout e).autoOffsetDelta = -s.autoOffsetDelta := by
  unfold offsetBoundary rerandOffsetMax
  split_ifs with h1 h2 h3 h4
  · exfalso
    have hb := hno h1 h2
    dsimp only at h3
    omega
  · exfalso
    have hb := hno h1 h2
    dsimp only at h4
    omega
  · rfl
  · rfl
  · rfl

/-!  ## Claims about the auto-mode offset  -/

set_option maxRecDepth 1000000 in
/-- C2 counterexample: the spec claims `-autoOffsetMax ≤ autoOffset ≤
autoOffsetMax` (the per-channel bound) in every reachable state.  The
concrete trajectory `cexC2` is reachable from the randomized initial state
`initLED 0 1 0` and ends with `autoOffset = 12 > autoOffsetMax = 11`: the
step past the bound only reflects the delta, it does not clamp the offset,
and a re-randomization has meanwhile shrunk the bound. -/
theorem c2_autoOffset_exceeds_channel_bound :
    Reachable 0 1 0 cexC2 ∧
    ¬ (-cexC2.autoOffsetMax ≤ cexC2.autoOffset ∧
        cexC2.autoOffset ≤ cexC2.autoOffsetMax) := by
  constructor
  · have hIter : ∀ (n : ℕ) (a lm : ℤ) (en : Env) (s : LED), Reachable 0 1 0 s →
        Reachable 0 1 0 ((fun s => autoAdjust s a lm en)^[n] s) := by
      intro n a lm en
      induction n with
      | zero => exact fun s hs => hs
      | succ k ih =>
        intro s hs
        rw [Function.iterate_succ_apply]
        exact ih _ (Reachable.step s a lm en hs)
    exact hIter 14 2000 1 c2E2 _
      (Reachable.step _ 11 1 c2E1 (hIter 200 11 1 c2E0 _ Reachable.init))
  · decide

/-- C2 amended: in every reachable state of every channel the auto-mode
offset stays within the global constant bounds `[-autoOffsetMax,
autoOffsetMax] = [-500, 500]`; the per-channel `autoOffsetMax` field can be
temporarily exceeded (by the overshoot step and after the bound is
re-randomized below the current offset). -/
theorem c2_autoOffset_global_bound (r1 r2 r3 : ℕ) (s : LED)
    (h : Reachable r1 r2 r3 s) :
    -autoOffsetMax ≤ s.autoOffset ∧ s.autoOffset ≤ autoOffsetMax := by
  have hinv : OffsetInv s := by
    induction h with
    | init => exact offsetInv_init r1 r2 r3
    | step s aout lm e hs ih => exact offsetInv_step s aout lm e ih
  obtain ⟨-, -, -, -, -, -, hlo, hhi⟩ := hinv
  unfold autoOffsetMax
  exact ⟨by omega, by omega⟩

/-- C2 witness: the global bound applied to the initial state itself. -/
theorem c2_autoOffset_global_bound_witness :
    -autoOffsetMax ≤ (initLED 0 0 0).autoOffset ∧
    (initLED 0 0 0).autoOffset ≤ autoOffsetMax :=
  c2_autoOffset_global_bound 0 0 0 (initLED 0 0 0) Reachable.init

end LLF

namespace LLF

/-!  ## Claims about boundary reflection  -/

/-- C5 counterexample: the spec claims the delta in effect after a
boundary-triggering step always has the opposite sign.  Channel state
`c5s` (offset 6 travelling down, delta −2) steps to offset 4 with intensity
2, crossing the off threshold (2 + 4 ≤ 10) in the direction of travel, so
the guard fires and the delta flips to +2 — but the cooldown-gated
re-randomization also fires, shrinks the bound to 2, finds the offset 4
outside it and sets the delta back to −2: the next step's delta has the
SAME sign as before. -/
theorem c5_reflection_overridden :
    c5s.autoOffsetDelta = -2 ∧
    flipGuard (stepOffset { c5s with autoLoop := c5s.autoLoop + 1 }) 2 ∧
    c5s.updateLoopSize = false ∧ c5s.autoLoop + 1 > c5s.autoLoopMax ∧
    (autoAdjust c5s 2 1 c5e).autoOffsetDelta = -2 := by
  decide

/-- C5 amended: whenever a triggering `autoAdjust` step (update flag clear,
counter past the loop bound) moves the offset so that the boundary guard
fires — offset beyond `±autoOffsetMax` in the direction of travel, or the
biased intensity at or past the off/on thresholds — the delta in effect at
the next step has the opposite sign, *unless* the cooldown-gated
re-randomization of `autoOffsetMax` also fires in the same step and leaves
the offset outside the new bound, in which case the delta is set to point
back inside the new bound, which may be the original sign.  The hypothesis
`hnoov` excludes exactly that override. -/
theorem c5_delta_reflects (s : LED) (aout loopMax : ℤ) (e : Env)
    (hflag : s.updateLoopSize = false)
    (htrig : s.autoLoop + 1 > s.autoLoopMax)
    (hguard : flipGuard (stepOffset { s with autoLoop := s.autoLoop + 1 }) aout)
    (hnoov : e.now - s.lastOffsetAdjust > autoOffsetAdjust → e.coinOffset % 2 = 0 →
      -(randomAutoOffsetMax (capOffsetMax aout) e.randOffsetMax) ≤
          s.autoOffset + s.autoOffsetDelta ∧
      s.autoOffset + s.autoOffsetDelta ≤
          randomAutoOffsetMax (capOffsetMax aout) e.randOffsetMax) :
    (autoAdjust s aout loopMax e).autoOffsetDelta = -s.autoOffsetDelta := by
  unfold autoAdjust
  rw [if_pos (Or.inr htrig)]
  unfold triggerBody
  have hcf : consumeUpdateFlag { s with autoLoop := s.autoLoop + 1 } loopMax e =
      { s with autoLoop := s.autoLoop + 1 } := by
    unfold consumeUpdateFlag
    rw [if_neg]
    simp [hflag]
  rw [hcf]
  rw [if_pos hguard]
  rw [(loopRerand_offset_fields _ loopMax e).2.1]
  exact offsetBoundary_delta (stepOffset { s with autoLoop := s.autoLoop + 1 }) aout e hnoov

/-- C5 witness: a channel with delta +2 and bound 1 steps from offset 0 to 2,
exceeds the bound in the direction of travel with the cooldown not yet
expired, and the next delta is −2. -/
theorem c5_delta_reflects_witness :
    (autoAdjust ⟨0, 0, false, 0, 0, 2, 1, 0⟩ 2000 1 ⟨0, 1, 0, 1, 0, 0⟩).autoOffsetDelta =
      -((⟨0, 0, false, 0, 0, 2, 1, 0⟩ : LED).autoOffsetDelta) :=
  c5_delta_reflects ⟨0, 0, false, 0, 0, 2, 1, 0⟩ 2000 1 ⟨0, 1, 0, 1, 0, 0⟩
    (by decide) (by decide) (by decide) (by decide)

end LLF

namespace LLF

/-!  ## Helper lemmas for auto-mode detection  -/

/-- Prepending an element shifts `getLast?`'s default into the head. -/
theorem getLastD_getD_cons {α : Type} (x d : α) (xs : List α) :
    ((x :: xs).getLast?).getD d = (xs.getLast?).getD x := by
  cases xs with
  | nil => rfl
  | cons y ys =>
    rw [List.getLast?_cons_cons]
    cases h : (y :: ys).getLast? with
    | none =>
      rw [List.getLast?_eq_none_iff] at h
      cases h
    | some z => rfl

/-- The first component of the counting fold is the old count plus the number
of readings below the off threshold. -/
theorem modeCount_offCt (a : Fin 4 → ℤ) (l : List (Fin 4)) (acc : ℕ × ℕ × Fin 4) :
    (l.foldl (modeCount a) acc).1 =
      acc.1 + l.countP (fun i => decide (a i < aoutOff)) := by
  induction l generalizing acc with
  | nil => simp
  | cons x xs ih =>
    rw [List.foldl_cons, ih, List.countP_cons]
    unfold modeCount
    split_ifs with h1 h2 <;> simp_all <;> omega

/-- The second component of the counting fold is the old count plus the
number of readings above the on threshold (a reading cannot be below 10 and
above 4000 at once). -/
theorem modeCount_onCt (a : Fin 4 → ℤ) (l : List (Fin 4)) (acc : ℕ × ℕ × Fin 4) :
    (l.foldl (modeCount a) acc).2.1 =
      acc.2.1 + l.countP (fun i => decide (aoutOn < a i)) := by
  induction l generalizing acc with
  | nil => simp
  | cons x xs ih =>
    rw [List.foldl_cons, ih, List.countP_cons]
    unfold modeCount aoutOff aoutOn
    split_ifs <;> simp_all <;> omega

/-- The third component of the counting fold is the last step whose reading
is below the off threshold, defaulting to the accumulator's. -/
theorem modeCount_ls (a : Fin 4 → ℤ) (l : List (Fin 4)) (acc : ℕ × ℕ × Fin 4) :
    (l.foldl (modeCount a) acc).2.2 =
      ((l.filter (fun i => decide (a i < aoutOff))).getLast?).getD acc.2.2 := by
  induction l generalizing acc with
  | nil => simp
  | cons x xs ih =>
    rw [List.foldl_cons, ih]
    unfold modeCount
    by_cases h1 : a x < aoutOff
    · rw [if_pos h1, List.filter_cons_of_pos (by simp [h1])]
      dsimp only
      rw [getLastD_getD_cons]
    · rw [if_neg h1, List.filter_cons_of_neg (by simp [h1])]
      by_cases h2 : a x > aoutOn
      · rw [if_pos h2]
      · rw [if_neg h2]

/-- A list of length one whose members all equal `j` is `[j]`. -/
theorem eq_singleton_of_length_one {α : Type} {l : List α} {j : α}
    (h1 : l.length = 1) (h2 : ∀ x ∈ l, x = j) : l = [j] := by
  cases l with
  | nil => cases h1
  | cons x xs =>
    cases xs with
    | nil => rw [h2 x (by simp)]
    | cons y ys => simp at h1

end LLF

namespace LLF

/-!  ## Claim about auto-mode detection  -/

/-- C6: for any prior mode, prior rate-control channel and four raw
readings, visited in any map iteration order: all four readings below the
off threshold (10) gives mode off with the rate-control channel unchanged;
exactly one reading below the off threshold with the other three above the
on threshold (4000) gives mode on with the below-threshold channel as
rate-control channel; every other pattern returns mode and channel
unchanged. -/
theorem c6_calcAutoMode_spec (m : Bool) (ls : Fin 4) (a : Fin 4 → ℤ)
    (ord : List (Fin 4)) (hord : List.Perm ord [0, 1, 2, 3]) :
    ((∀ i, a i < aoutOff) → calcAutoMode m ls a ord = (false, ls)) ∧
    (∀ j, a j < aoutOff → (∀ i, i ≠ j → aoutOn < a i) →
      calcAutoMode m ls a ord = (true, j)) ∧
    ((¬ ∀ i, a i < aoutOff) → (∀ j, a j < aoutOff → ∃ i, i ≠ j ∧ a i ≤ aoutOn) →
      calcAutoMode m ls a ord = (m, ls)) := by
  refine ⟨?_, ?_, ?_⟩
  · intro hall
    have hc : (ord.foldl (modeCount a) (0, 0, 0)).1 = 4 := by
      rw [modeCount_offCt, hord.countP_eq]
      have hd4 : ∀ i : Fin 4, decide (a i < aoutOff) = true :=
        fun i => decide_eq_true (hall i)
      simp [List.countP_cons, hd4]
    unfold calcAutoMode
    rw [if_pos hc]
  · intro j hj ho
    have hpeq : ∀ x : Fin 4, decide (a x < aoutOff) = decide (x = j) := by
      intro x
      by_cases hx : x = j
      · subst hx
        simp [hj]
      · have h1 := ho x hx
        have h2 : ¬ (a x < aoutOff) := by
          unfold aoutOff
          unfold aoutOn at h1
          omega
        simp [hx, h2]
    have hqeq : ∀ x : Fin 4, decide (aoutOn < a x) = decide (¬ x = j) := by
      intro x
      by_cases hx : x = j
      · subst hx
        have h2 : ¬ (aoutOn < a x) := by
          unfold aoutOff at hj
          unfold aoutOn
          omega
        simp [h2]
      · simp [hx, ho x hx]
    have hoff : (ord.foldl (modeCount a) (0, 0, 0)).1 = 1 := by
      rw [modeCount_offCt, List.countP_congr (fun x _ => by rw [hpeq x]), hord.countP_eq]
      fin_cases j <;> decide
    have hon : (ord.foldl (modeCount a) (0, 0, 0)).2.1 = 3 := by
      rw [modeCount_onCt, List.countP_congr (fun x _ => by rw [hqeq x]), hord.countP_eq]
      fin_cases j <;> decide
    have hls : (ord.foldl (modeCount a) (0, 0, 0)).2.2 = j := by
      rw [modeCount_ls]
      have hfil : ord.filter (fun i => decide (a i < aoutOff)) = [j] := by
        apply eq_singleton_of_length_one
        · rw [← List.countP_eq_length_filter,
            List.countP_congr (fun x _ => by rw [hpeq x]), hord.countP_eq]
          fin_cases j <;> decide
        · intro x hx
          rw [List.mem_filter] at hx
          by_contra hne
          have h1 := ho x hne
          have h2 := of_decide_eq_true hx.2
          unfold aoutOff at h2
          unfold aoutOn at h1
          omega
      rw [hfil]
      rfl
    unfold calcAutoMode
    rw [if_neg (by rw [hoff]; omega), if_pos ⟨hoff, hon⟩, hls]
  · intro h1 h2
    have hmem : ∀ i : Fin 4, i ∈ ([0, 1, 2, 3] : List (Fin 4)) := by decide
    have hne4 : ¬ (ord.foldl (modeCount a) (0, 0, 0)).1 = 4 := by
      rw [modeCount_offCt, hord.countP_eq]
      intro hc
      have hlen : List.countP (fun i => decide (a i < aoutOff)) [0, 1, 2, 3] =
          ([0, 1, 2, 3] : List (Fin 4)).length := by
        simp only [List.length_cons, List.length_nil]
        omega
      have hallmem := List.countP_eq_length.mp hlen
      exact h1 fun i => of_decide_eq_true (hallmem i (hmem i))
    have hn13 : ¬ ((ord.foldl (modeCount a) (0, 0, 0)).1 = 1 ∧
        (ord.foldl (modeCount a) (0, 0, 0)).2.1 = 3) := by
      rintro ⟨hc1, hc3⟩
      rw [modeCount_offCt, hord.countP_eq] at hc1
      rw [modeCount_onCt, hord.countP_eq] at hc3
      dsimp only at hc1 hc3
      have hpos : 0 < List.countP (fun i => decide (a i < aoutOff)) [0, 1, 2, 3] := by
        omega
      obtain ⟨j, hjmem, hjp⟩ := List.countP_pos_iff.mp hpos
      have hjlt : a j < aoutOff := of_decide_eq_true hjp
      obtain ⟨i0, hne, hle⟩ := h2 j hjlt
      have hmono : List.countP (fun i => decide (aoutOn < a i)) [0, 1, 2, 3] ≤
          List.countP (fun x => decide (x ≠ j ∧ x ≠ i0)) [0, 1, 2, 3] := by
        apply List.countP_mono_left
        intro x _ hx
        have hxlt := of_decide_eq_true hx
        apply decide_eq_true
        constructor
        · rintro rfl
          unfold aoutOff at hjlt
          unfold aoutOn at hxlt
          omega
        · rintro rfl
          omega
      have h2c : List.countP (fun x => decide (x ≠ j ∧ x ≠ i0)) [0, 1, 2, 3] = 2 := by
        fin_cases j <;> fin_cases i0 <;>
          first
          | exact absurd rfl hne
          | decide
      omega
    unfold calcAutoMode
    rw [if_neg hne4, if_neg hn13]

/-- C6 witness: with readings `{5, 4090, 4090, 4090}` in natural order,
channel 0 below the off threshold and the rest above the on threshold, the
mode switches on with channel 0 as rate-control channel. -/
theorem c6_calcAutoMode_spec_witness :
    calcAutoMode false 2 (fun i => if i = 0 then 5 else 4090) [0, 1, 2, 3] = (true, 0) :=
  (c6_calcAutoMode_spec false 2 (fun i => if i = 0 then 5 else 4090) [0, 1, 2, 3]
      (by decide)).2.1 0 (by decide) (by decide)

end LLF
